import Mathlib

/-!
Verification of the Session Engine of the trivia tug-of-war repository.

The definitions below are a shallow embedding of the session durable object
(`apps/api/src/durable-objects/session-do.ts`) together with the shared
constants (`packages/shared/src/constants/index.ts`) and the ruleset
validation schema (`packages/shared/src/types/index.ts`).  JavaScript
numbers are modelled as rationals (`ℚ`), JS `Math.floor` as `Int.floor`,
JS `Math.round` as `jsRound`, the JS `||` numeric fallback as `jsOr`,
`Map`s keyed by strings as association lists and the `streaks` record as a
total function defaulting to `{current := 0, max := 0}` (every read of the
record in the source goes through a `|| {current: 0, max: 0}` or
`?.max || 0` default, so the total-function view is observationally
identical).  Database writes and broadcasts are modelled as explicit output
fields of each handler.
-/

/-- Session phases, from the shared `SessionPhase` type. -/
inductive Phase where
  | lobby
  | ready
  | active_question
  | reveal
  | paused
  | completed
deriving DecidableEq, Repr

/-- Connection roles. -/
inductive Role where
  | teacher
  | student
deriving DecidableEq, Repr

/-- Team sides, assigned by creation order in `loadTeams`. -/
inductive Side where
  | left
  | right
deriving DecidableEq, Repr

/-- Strength-event reasons used by the engine. -/
inductive Reason where
  | correct_answer
  | manual_adjust
deriving DecidableEq, Repr

/-- WebSocket error codes used by the answer-submission path. -/
inductive WsErrorCode where
  | NOT_AUTHORIZED
  | INVALID_MESSAGE
  | QUESTION_EXPIRED
  | ALREADY_ANSWERED
  | INVALID_ANSWER
deriving DecidableEq, Repr

/-- Constant from `packages/shared/src/constants/index.ts`. -/
def TUG_START_POSITION : ℚ := 50

/-- Constant from `packages/shared/src/constants/index.ts`. -/
def TUG_MIN_POSITION : ℚ := 0

/-- Constant from `packages/shared/src/constants/index.ts`. -/
def TUG_MAX_POSITION : ℚ := 100

/-- JavaScript `a || b` on numbers: `b` when `a` is falsy (zero). -/
def jsOr (a b : ℚ) : ℚ := if a = 0 then b else a

/-- JavaScript `Math.round`: round half toward positive infinity. -/
def jsRound (q : ℚ) : ℤ := ⌊q + 1 / 2⌋

/-- Membership test of an association list, modelling JS `Map.has`. -/
def assocHas {α : Type} (m : List (String × α)) (k : String) : Bool :=
  m.any (fun p => p.1 == k)

/-- Update of an association list, modelling JS `Map.set`. -/
def assocSet {α : Type} (m : List (String × α)) (k : String) (v : α) :
    List (String × α) :=
  if assocHas m k then m.map (fun p => if p.1 == k then (k, v) else p)
  else m ++ [(k, v)]

/-- Answer option of a question, from the shared `Answer` type. -/
structure Answer where
  id : String
  text : String
  isCorrect : Bool
deriving DecidableEq, Repr

/-- Question instance snapshot, from the shared `QuestionInstance` type. -/
structure QuestionInstance where
  id : String
  questionId : String
  sessionId : String
  index : Int
  text : String
  answers : List Answer
  correctAnswerId : String
  timeLimitMs : ℚ
  points : ℚ
  startedAt : ℚ
deriving DecidableEq, Repr

/-- Ruleset configuration loaded by `handleInit`. -/
structure RulesetConfig where
  questionCount : ℚ
  timeLimitMsPerQuestion : ℚ
  pointsPerCorrect : ℚ
  pointsForSpeed : Bool
  streakBonus : Bool
  streakThreshold : ℚ
  streakMultiplier : ℚ
deriving DecidableEq, Repr

/-- Validity of a ruleset per `rulesetSchema` in
`packages/shared/src/types/index.ts` (value ranges only). -/
def rulesetSchemaValid (r : RulesetConfig) : Prop :=
  1 ≤ r.questionCount ∧ r.questionCount ≤ 100 ∧
  5000 ≤ r.timeLimitMsPerQuestion ∧ r.timeLimitMsPerQuestion ≤ 120000 ∧
  1 ≤ r.pointsPerCorrect ∧ r.pointsPerCorrect ≤ 100 ∧
  2 ≤ r.streakThreshold ∧ r.streakThreshold ≤ 10 ∧
  1 ≤ r.streakMultiplier ∧ r.streakMultiplier ≤ 3

/-- Per-team streak record. -/
structure StreakEntry where
  current : ℚ
  max : ℚ
deriving DecidableEq, Repr

/-- Team snapshot (roster members are irrelevant to the verified claims
and omitted). -/
structure Team where
  id : String
  name : String
  color : String
  side : Side
deriving DecidableEq, Repr

/-- The `StoredState` record of the durable object. -/
structure StoredState where
  sessionId : String
  tenantId : String
  phase : Phase
  position : ℚ
  questionIds : List String
  currentQuestionIndex : Int
  currentQuestion : Option QuestionInstance
  teams : List Team
  streaks : String → StreakEntry
  startedAt : Option ℚ
  lastEventId : String
  snapshotVersion : Nat

/-- In-memory per-question answer record (`AnswerRecord` in the source). -/
structure AnswerRecord where
  studentId : String
  teamId : Option String
  answerId : String
  isCorrect : Bool
  responseTimeMs : ℚ
  pointsAwarded : ℚ
  timestamp : ℚ
deriving DecidableEq, Repr

/-- The live state of the durable object: stored state, ruleset, the
`answersThisQuestion` map and the pending question deadline (`questionTimer`
holds the absolute wall-clock instant the scheduled `setTimeout` fires). -/
structure Engine where
  storedState : StoredState
  ruleset : Option RulesetConfig
  answersThisQuestion : List (String × AnswerRecord)
  questionTimer : Option ℚ

/-- Authenticated client data relevant to message handling. -/
structure Client where
  userId : String
  role : Role
  teamId : Option String
deriving DecidableEq, Repr

/-- The `SUBMIT_ANSWER` client message. -/
structure SubmitMsg where
  instanceId : String
  choiceId : String
deriving DecidableEq, Repr

/-- Row inserted into the `attempts` table. -/
structure AttemptRow where
  id : String
  sessionId : String
  questionInstanceId : String
  studentId : String
  teamId : Option String
  answerId : String
  isCorrect : Bool
  responseTimeMs : ℚ
  pointsAwarded : ℚ
  createdAt : ℚ
deriving DecidableEq, Repr

/-- Row inserted into the `strength_events` table (delta and position are
scaled/rounded to integers exactly as in the source). -/
structure StrengthRow where
  sessionId : String
  teamId : String
  delta : ℤ
  reason : Reason
  newPosition : ℤ
  triggeredBy : String
  occurredAt : ℚ
deriving DecidableEq, Repr

/-- The broadcast `TUG_UPDATE` event. -/
structure TugUpdateEvt where
  position : ℚ
  lastEventId : String
  delta : ℚ
  reason : Reason
  teamId : String
deriving DecidableEq, Repr

/-- The targeted `ANSWER_RESULT` event. -/
structure AnswerResultEvt where
  correct : Bool
  correctAnswerId : String
  delta : ℚ
  newPosition : ℚ
  pointsAwarded : ℚ
  responseTimeMs : ℚ
deriving DecidableEq, Repr

/-- Observable output of one `handleSubmitAnswer` call: the error (if any),
the persisted rows and the emitted events. -/
structure SubmitOutput where
  error : Option WsErrorCode
  attemptInserted : Option AttemptRow
  strengthInserted : Option StrengthRow
  tugUpdate : Option TugUpdateEvt
  answerResult : Option AnswerResultEvt
deriving DecidableEq, Repr

/-- Output of an error early-return: no rows, no events. -/
def errOut (c : WsErrorCode) : SubmitOutput := ⟨some c, none, none, none, none⟩

/-- Shallow embedding of `handleSubmitAnswer`
(`session-do.ts` lines 369-537).  `now` is `Date.now()` at handling time and
`attemptId` the generated UUID. -/
def handleSubmitAnswer (eng : Engine) (client : Client) (msg : SubmitMsg)
    (now : ℚ) (attemptId : String) : SubmitOutput × Engine :=
  if client.role ≠ Role.student then (errOut WsErrorCode.NOT_AUTHORIZED, eng)
  else
    match eng.storedState.currentQuestion with
    | none => (errOut WsErrorCode.INVALID_MESSAGE, eng)
    | some question =>
      if eng.storedState.phase ≠ Phase.active_question then
        (errOut WsErrorCode.INVALID_MESSAGE, eng)
      else if msg.instanceId ≠ question.id then
        (errOut WsErrorCode.QUESTION_EXPIRED, eng)
      else if assocHas eng.answersThisQuestion client.userId then
        (errOut WsErrorCode.ALREADY_ANSWERED, eng)
      else
        match question.answers.find? (fun a => a.id == msg.choiceId) with
        | none => (errOut WsErrorCode.INVALID_ANSWER, eng)
        | some answer =>
          let st := eng.storedState
          let responseTimeMs := now - question.startedAt
          let isCorrect := answer.isCorrect
          let pointsAwarded : ℚ :=
            if isCorrect then
              if (eng.ruleset.map (fun r => r.pointsForSpeed)).getD false then
                question.points +
                  ((⌊question.points * (1 / 2) *
                      (max 0 (1 - responseTimeMs / question.timeLimitMs))⌋ : ℤ) : ℚ)
              else question.points
            else 0
          let answerRecord : AnswerRecord :=
            ⟨client.userId, client.teamId, msg.choiceId, isCorrect,
              responseTimeMs, pointsAwarded, now⟩
          let answersNew := assocSet eng.answersThisQuestion client.userId answerRecord
          let attemptRow : AttemptRow :=
            ⟨attemptId, st.sessionId, question.id, client.userId, client.teamId,
              msg.choiceId, isCorrect, responseTimeMs, pointsAwarded, now⟩
          match client.teamId with
          | some teamId =>
            if answer.isCorrect then
              let teamIndex : Int :=
                (st.teams.findIdx? (fun t => t.id == teamId)).elim (-1) Int.ofNat
              let delta0 : ℚ :=
                if teamIndex = (0 : Int) then -(pointsAwarded / 10) else pointsAwarded / 10
              let streak0 := st.streaks teamId
              let newCurrent := streak0.current + 1
              let newMax := max streak0.max newCurrent
              let bonusApplies : Bool :=
                match eng.ruleset with
                | some r => r.streakBonus && decide (jsOr r.streakThreshold 3 ≤ newCurrent)
                | none => false
              let delta : ℚ :=
                if bonusApplies then
                  delta0 * (match eng.ruleset with
                            | some r => jsOr r.streakMultiplier (3 / 2)
                            | none => 3 / 2)
                else delta0
              let streaks1 := Function.update st.streaks teamId ⟨newCurrent, newMax⟩
              let streaks2 := st.teams.foldl
                (fun s t =>
                  if t.id == teamId then s
                  else Function.update s t.id ⟨0, jsOr (s t.id).max 0⟩)
                streaks1
              let newPosition :=
                max TUG_MIN_POSITION (min TUG_MAX_POSITION (st.position + delta))
              let strengthRow : StrengthRow :=
                ⟨st.sessionId, teamId, jsRound (delta * 10), Reason.correct_answer,
                  jsRound newPosition, client.userId, now⟩
              let tug : TugUpdateEvt :=
                ⟨newPosition, attemptId, delta, Reason.correct_answer, teamId⟩
              let st2 := { st with
                position := newPosition
                lastEventId := attemptId
                streaks := streaks2 }
              let answerResult : AnswerResultEvt :=
                ⟨isCorrect, question.correctAnswerId, delta, newPosition,
                  pointsAwarded, responseTimeMs⟩
              (⟨none, some attemptRow, some strengthRow, some tug, some answerResult⟩,
                { eng with storedState := st2, answersThisQuestion := answersNew })
            else
              let answerResult : AnswerResultEvt :=
                ⟨isCorrect, question.correctAnswerId, 0, st.position,
                  pointsAwarded, responseTimeMs⟩
              (⟨none, some attemptRow, none, none, some answerResult⟩,
                { eng with answersThisQuestion := answersNew })
          | none =>
            let answerResult : AnswerResultEvt :=
              ⟨isCorrect, question.correctAnswerId, 0, st.position,
                pointsAwarded, responseTimeMs⟩
            (⟨none, some attemptRow, none, none, some answerResult⟩,
              { eng with answersThisQuestion := answersNew })

/-- Body of the HTTP fallback answer endpoint. -/
structure HttpAnswerBody where
  studentId : String
  teamId : String
  questionInstanceId : String
  answerId : String
deriving DecidableEq, Repr

/-- JSON response of the HTTP fallback endpoint on success. -/
structure HttpAnswerResp where
  correct : Bool
  pointsAwarded : ℚ
  responseTimeMs : ℚ
deriving DecidableEq, Repr

/-- Observable output of one `handleHttpAnswer` call.  The handler persists
at most an attempt row; it has no strength-event, tug-update or streak
effect (see the theorem for claim C7). -/
structure HttpOutput where
  errorMsg : Option String
  attemptInserted : Option AttemptRow
  response : Option HttpAnswerResp
deriving DecidableEq, Repr

/-- Shallow embedding of `handleHttpAnswer`
(`session-do.ts` lines 774-839). -/
def handleHttpAnswer (eng : Engine) (body : HttpAnswerBody)
    (now : ℚ) (attemptId : String) : HttpOutput × Engine :=
  match eng.storedState.currentQuestion with
  | none => (⟨some "No active question", none, none⟩, eng)
  | some question =>
    if eng.storedState.phase ≠ Phase.active_question then
      (⟨some "Not accepting answers", none, none⟩, eng)
    else if body.questionInstanceId ≠ question.id then
      (⟨some "Question expired", none, none⟩, eng)
    else if assocHas eng.answersThisQuestion body.studentId then
      (⟨some "Already answered", none, none⟩, eng)
    else
      match question.answers.find? (fun a => a.id == body.answerId) with
      | none => (⟨some "Invalid answer", none, none⟩, eng)
      | some answer =>
        let responseTimeMs := now - question.startedAt
        let isCorrect := answer.isCorrect
        let pointsAwarded : ℚ := if isCorrect then question.points else 0
        let answerRecord : AnswerRecord :=
          ⟨body.studentId, some body.teamId, body.answerId, isCorrect,
            responseTimeMs, pointsAwarded, now⟩
        let answersNew := assocSet eng.answersThisQuestion body.studentId answerRecord
        let attemptRow : AttemptRow :=
          ⟨attemptId, eng.storedState.sessionId, question.id, body.studentId,
            some body.teamId, body.answerId, isCorrect, responseTimeMs,
            pointsAwarded, now⟩
        (⟨none, some attemptRow, some ⟨isCorrect, pointsAwarded, responseTimeMs⟩⟩,
          { eng with answersThisQuestion := answersNew })

/-- Observable output of one `handleManualAdjust` call. -/
structure ManualAdjustOutput where
  strengthInserted : Option StrengthRow
  tugUpdate : Option TugUpdateEvt
  acked : Bool
deriving DecidableEq, Repr

/-- Shallow embedding of `handleManualAdjust`
(`session-do.ts` lines 614-663).  `msgDelta` is the validated message delta
and `eventId` the generated UUID. -/
def handleManualAdjust (eng : Engine) (client : Client) (msgDelta : ℚ)
    (now : ℚ) (eventId : String) : ManualAdjustOutput × Engine :=
  if client.role ≠ Role.teacher then (⟨none, none, false⟩, eng)
  else
    let delta := max (-100) (min 100 msgDelta)
    let newPosition :=
      max TUG_MIN_POSITION (min TUG_MAX_POSITION (eng.storedState.position + delta))
    let teamAttr : String :=
      ((if delta > 0 then eng.storedState.teams[1]? else eng.storedState.teams[0]?).map
        (fun t => t.id)).getD ""
    let strengthRow : StrengthRow :=
      ⟨eng.storedState.sessionId, teamAttr, jsRound (delta * 10),
        Reason.manual_adjust, jsRound newPosition, client.userId, now⟩
    let tug : TugUpdateEvt :=
      ⟨newPosition, eventId, delta, Reason.manual_adjust, teamAttr⟩
    (⟨some strengthRow, some tug, true⟩,
      { eng with storedState := { eng.storedState with
          position := newPosition
          lastEventId := eventId } })

/-- The broadcast `PHASE_CHANGE` event. -/
structure PhaseChangeEvt where
  phase : Phase
  previousPhase : Phase
deriving DecidableEq, Repr

/-- Shallow embedding of `handlePause` (`session-do.ts` lines 581-596).
Note that the source changes only the phase: the pending question timer is
left untouched. -/
def handlePause (eng : Engine) (client : Client) : Option PhaseChangeEvt × Engine :=
  if client.role ≠ Role.teacher then (none, eng)
  else if eng.storedState.phase ≠ Phase.active_question then (none, eng)
  else
    (some ⟨Phase.paused, eng.storedState.phase⟩,
      { eng with storedState := { eng.storedState with phase := Phase.paused } })

/-- Shallow embedding of `handleResume` (`session-do.ts` lines 598-612).
Note that the source changes only the phase: no timer is rescheduled. -/
def handleResume (eng : Engine) (client : Client) : Option PhaseChangeEvt × Engine :=
  if client.role ≠ Role.teacher then (none, eng)
  else if eng.storedState.phase ≠ Phase.paused then (none, eng)
  else
    (some ⟨Phase.active_question, Phase.paused⟩,
      { eng with storedState := { eng.storedState with phase := Phase.active_question } })

/-- Question row loaded from the `questions` table by `startQuestion`. -/
structure QuestionRow where
  qtype : String
  difficulty : String
  text : String
  answers : List Answer
  timeLimitMs : ℚ
  points : ℚ
deriving DecidableEq, Repr

/-- Student-safe answer option: only id and text. -/
structure PublicAnswer where
  id : String
  text : String
deriving DecidableEq, Repr

/-- The student-safe question projection broadcast at question start
(`studentSafeQuestion` in the source): it carries no `isCorrect` flags and
no `correctAnswerId`. -/
structure StudentSafeQuestion where
  id : String
  qtype : String
  difficulty : String
  text : String
  answers : List PublicAnswer
  timeLimitMs : ℚ
  points : ℚ
deriving DecidableEq, Repr

/-- The broadcast `QUESTION` event. -/
structure QuestionEvt where
  question : StudentSafeQuestion
  questionIndex : Int
  totalQuestions : Nat
  timeLimitMs : ℚ
  startsAt : ℚ
deriving DecidableEq, Repr

/-- Shallow embedding of `startQuestion` (`session-do.ts` lines 853-940).
`row` is the question row loaded from the store, `instanceId` the generated
UUID; the scheduled `setTimeout` is recorded as the absolute deadline in
`questionTimer`. -/
def startQuestion (eng : Engine) (index : Int) (questionId : String)
    (row : QuestionRow) (now : ℚ) (instanceId : String) :
    Option QuestionEvt × Engine :=
  let correctAnswer := row.answers.find? (fun a => a.isCorrect)
  let timeLimitMs :=
    match eng.ruleset with
    | some r => jsOr r.timeLimitMsPerQuestion row.timeLimitMs
    | none => row.timeLimitMs
  let points :=
    match eng.ruleset with
    | some r => jsOr r.pointsPerCorrect row.points
    | none => row.points
  let questionInstance : QuestionInstance :=
    ⟨instanceId, questionId, eng.storedState.sessionId, index, row.text,
      row.answers, ((correctAnswer.map (fun a => a.id)).getD "a"),
      timeLimitMs, points, now⟩
  let studentSafeQuestion : StudentSafeQuestion :=
    ⟨questionInstance.id, row.qtype, row.difficulty, questionInstance.text,
      row.answers.map (fun a => ⟨a.id, a.text⟩),
      questionInstance.timeLimitMs, questionInstance.points⟩
  let st2 := { eng.storedState with
    currentQuestion := some questionInstance
    currentQuestionIndex := index
    phase := Phase.active_question
    snapshotVersion := eng.storedState.snapshotVersion + 1 }
  (some ⟨studentSafeQuestion, index, eng.storedState.questionIds.length,
      questionInstance.timeLimitMs, now⟩,
    { eng with
        storedState := st2
        answersThisQuestion := []
        questionTimer := some (now + questionInstance.timeLimitMs) })

/-- Per-team aggregate statistics at question end. -/
structure TeamStat where
  attempts : Nat
  correct : Nat
  avgTime : ℚ
deriving DecidableEq, Repr

/-- The broadcast `QUESTION_REVEAL` event. -/
structure RevealEvt where
  questionInstanceId : String
  correctAnswerId : String
  totalAttempts : Nat
  correctAttempts : Nat
  teamStats : List (String × TeamStat)
deriving DecidableEq, Repr

/-- Shallow embedding of `endCurrentQuestion`
(`session-do.ts` lines 942-994).  Note that the source does not check the
phase: it proceeds whenever a current question exists. -/
def endCurrentQuestion (eng : Engine) (_now : ℚ) : Option RevealEvt × Engine :=
  match eng.storedState.currentQuestion with
  | none => (none, eng)
  | some question =>
    let attempts := eng.answersThisQuestion.map (fun p => p.2)
    let totalAttempts := attempts.length
    let correctAttempts := (attempts.filter (fun a => a.isCorrect)).length
    let teamStats := eng.storedState.teams.map (fun t =>
      let teamAttempts := attempts.filter (fun a => a.teamId == some t.id)
      (t.id,
        (⟨teamAttempts.length,
          (teamAttempts.filter (fun a => a.isCorrect)).length,
          if teamAttempts.length > 0 then
            (teamAttempts.foldl (fun s a => s + a.responseTimeMs) 0) /
              (teamAttempts.length : ℚ)
          else 0⟩ : TeamStat)))
    (some ⟨question.id, question.correctAnswerId, totalAttempts,
        correctAttempts, teamStats⟩,
      { eng with
          storedState := { eng.storedState with phase := Phase.reveal }
          questionTimer := none })

/-- Shallow embedding of `endGame` (`session-do.ts` lines 996-1043),
restricted to its state effects: end the current question if any, then set
the phase to completed.  The position is not modified. -/
def endGame (eng : Engine) (now : ℚ) : Engine :=
  let eng1 :=
    match eng.storedState.currentQuestion with
    | some _ => (endCurrentQuestion eng now).2
    | none => eng
  { eng1 with storedState := { eng1.storedState with phase := Phase.completed } }

/-- Shallow embedding of `handleInit` (`session-do.ts` lines 691-741):
builds the fresh stored state.  Teams are loaded from the store afterwards
(`loadTeams`), modelled as a separate command. -/
def Engine.init (sessionId tenantId : String) (questionIds : List String)
    (ruleset : Option RulesetConfig) (now : ℚ) (eventId : String) : Engine :=
  { storedState :=
      { sessionId := sessionId
        tenantId := tenantId
        phase := Phase.ready
        position := TUG_START_POSITION
        questionIds := questionIds
        currentQuestionIndex := -1
        currentQuestion := none
        teams := []
        streaks := fun _ => ⟨0, 0⟩
        startedAt := some now
        lastEventId := eventId
        snapshotVersion := 1 }
    ruleset := ruleset
    answersThisQuestion := []
    questionTimer := none }

/-- Streak projection delivered in game-state views. -/
structure StreakView where
  teamId : String
  currentStreak : ℚ
  maxStreak : ℚ
deriving DecidableEq, Repr

/-- The `GameState` value built by `buildGameState`.  The `currentQuestion`
field is `none` exactly when the source leaves the field `undefined`. -/
structure GameStateView where
  sessionId : String
  phase : Phase
  positionValue : ℚ
  positionLastEventId : String
  currentQuestion : Option QuestionInstance
  questionIndex : Int
  totalQuestions : Nat
  teams : List Team
  streaks : String → StreakView
  startedAt : Option ℚ

/-- Shallow embedding of `buildGameState`
(`session-do.ts` lines 1140-1166). -/
def buildGameState (eng : Engine) (includeAnswers : Bool) : GameStateView :=
  { sessionId := eng.storedState.sessionId
    phase := eng.storedState.phase
    positionValue := eng.storedState.position
    positionLastEventId := eng.storedState.lastEventId
    currentQuestion :=
      if includeAnswers then eng.storedState.currentQuestion else none
    questionIndex := eng.storedState.currentQuestionIndex
    totalQuestions := eng.storedState.questionIds.length
    teams := eng.storedState.teams
    streaks := fun k =>
      ⟨k, (eng.storedState.streaks k).current, (eng.storedState.streaks k).max⟩
    startedAt := eng.storedState.startedAt }

/-- Shallow embedding of the role resolution and projection of
`handleGetState` (`session-do.ts` lines 756-772): the `role` query
parameter defaults to student via the JS falsy fallback. -/
def handleGetState (eng : Engine) (roleParam : Option String) : GameStateView :=
  let role :=
    match roleParam with
    | none => "student"
    | some s => if s = "" then "student" else s
  buildGameState eng (role == "teacher")

/-- Shallow embedding of `sendStateSnapshot`
(`session-do.ts` lines 1206-1218): the state snapshot sent to a single
connection, projected by the connection role. -/
def sendStateSnapshot (eng : Engine) (role : Role) : GameStateView × Nat :=
  (buildGameState eng (role == Role.teacher), eng.storedState.snapshotVersion)

/-- Shallow embedding of `loadTeams` restricted to its state effect:
replacing the team snapshots from the roster query. -/
def loadTeams (eng : Engine) (teams : List Team) : Engine :=
  { eng with storedState := { eng.storedState with teams := teams } }

/-- Commands driving the engine, used to characterise reachable states. -/
inductive Command where
  | submitAnswer (client : Client) (msg : SubmitMsg) (now : ℚ) (attemptId : String)
  | httpAnswer (body : HttpAnswerBody) (now : ℚ) (attemptId : String)
  | manualAdjust (client : Client) (msgDelta : ℚ) (now : ℚ) (eventId : String)
  | pause (client : Client)
  | resume (client : Client)
  | startQ (index : Int) (questionId : String) (row : QuestionRow) (now : ℚ)
      (instanceId : String)
  | endQ (now : ℚ)
  | gameOver (now : ℚ)
  | teams (roster : List Team)

/-- State transition of one command (outputs discarded). -/
def stepCommand (eng : Engine) : Command → Engine
  | Command.submitAnswer client msg now attemptId =>
      (handleSubmitAnswer eng client msg now attemptId).2
  | Command.httpAnswer body now attemptId =>
      (handleHttpAnswer eng body now attemptId).2
  | Command.manualAdjust client msgDelta now eventId =>
      (handleManualAdjust eng client msgDelta now eventId).2
  | Command.pause client => (handlePause eng client).2
  | Command.resume client => (handleResume eng client).2
  | Command.startQ index questionId row now instanceId =>
      (startQuestion eng index questionId row now instanceId).2
  | Command.endQ now => (endCurrentQuestion eng now).2
  | Command.gameOver now => endGame eng now
  | Command.teams roster => loadTeams eng roster

/-- Result of `handleSubmitAnswer` once all admission checks have passed,
with the current question and the found answer option made explicit.  This
is the success branch of `handleSubmitAnswer` verbatim; the lemma
`handleSubmitAnswer_admitted` proves the equality. -/
def admittedSubmit (eng : Engine) (client : Client) (msg : SubmitMsg)
    (now : ℚ) (attemptId : String) (question : QuestionInstance)
    (answer : Answer) : SubmitOutput × Engine :=
  let st := eng.storedState
  let responseTimeMs := now - question.startedAt
  let isCorrect := answer.isCorrect
  let pointsAwarded : ℚ :=
    if isCorrect then
      if (eng.ruleset.map (fun r => r.pointsForSpeed)).getD false then
        question.points +
          ((⌊question.points * (1 / 2) *
              (max 0 (1 - responseTimeMs / question.timeLimitMs))⌋ : ℤ) : ℚ)
      else question.points
    else 0
  let answerRecord : AnswerRecord :=
    ⟨client.userId, client.teamId, msg.choiceId, isCorrect,
      responseTimeMs, pointsAwarded, now⟩
  let answersNew := assocSet eng.answersThisQuestion client.userId answerRecord
  let attemptRow : AttemptRow :=
    ⟨attemptId, st.sessionId, question.id, client.userId, client.teamId,
      msg.choiceId, isCorrect, responseTimeMs, pointsAwarded, now⟩
  match client.teamId with
  | some teamId =>
    if answer.isCorrect then
      let teamIndex : Int :=
        (st.teams.findIdx? (fun t => t.id == teamId)).elim (-1) Int.ofNat
      let delta0 : ℚ :=
        if teamIndex = (0 : Int) then -(pointsAwarded / 10) else pointsAwarded / 10
      let streak0 := st.streaks teamId
      let newCurrent := streak0.current + 1
      let newMax := max streak0.max newCurrent
      let bonusApplies : Bool :=
        match eng.ruleset with
        | some r => r.streakBonus && decide (jsOr r.streakThreshold 3 ≤ newCurrent)
        | none => false
      let delta : ℚ :=
        if bonusApplies then
          delta0 * (match eng.ruleset with
                    | some r => jsOr r.streakMultiplier (3 / 2)
                    | none => 3 / 2)
        else delta0
      let streaks1 := Function.update st.streaks teamId ⟨newCurrent, newMax⟩
      let streaks2 := st.teams.foldl
        (fun s t =>
          if t.id == teamId then s
          else Function.update s t.id ⟨0, jsOr (s t.id).max 0⟩)
        streaks1
      let newPosition :=
        max TUG_MIN_POSITION (min TUG_MAX_POSITION (st.position + delta))
      let strengthRow : StrengthRow :=
        ⟨st.sessionId, teamId, jsRound (delta * 10), Reason.correct_answer,
          jsRound newPosition, client.userId, now⟩
      let tug : TugUpdateEvt :=
        ⟨newPosition, attemptId, delta, Reason.correct_answer, teamId⟩
      let st2 := { st with
        position := newPosition
        lastEventId := attemptId
        streaks := streaks2 }
      let answerResult : AnswerResultEvt :=
        ⟨isCorrect, question.correctAnswerId, delta, newPosition,
          pointsAwarded, responseTimeMs⟩
      (⟨none, some attemptRow, some strengthRow, some tug, some answerResult⟩,
        { eng with storedState := st2, answersThisQuestion := answersNew })
    else
      let answerResult : AnswerResultEvt :=
        ⟨isCorrect, question.correctAnswerId, 0, st.position,
          pointsAwarded, responseTimeMs⟩
      (⟨none, some attemptRow, none, none, some answerResult⟩,
        { eng with answersThisQuestion := answersNew })
  | none =>
    let answerResult : AnswerResultEvt :=
      ⟨isCorrect, question.correctAnswerId, 0, st.position,
        pointsAwarded, responseTimeMs⟩
    (⟨none, some attemptRow, none, none, some answerResult⟩,
      { eng with answersThisQuestion := answersNew })

/-- Fixture: the left and right team of a two-team session. -/
def teamL : Team := ⟨"L", "Red", "red", Side.left⟩

/-- Fixture: the right team. -/
def teamR : Team := ⟨"R", "Blue", "blue", Side.right⟩

/-- Fixture: a ruleset with speed bonus and streak bonus enabled
(threshold 3, multiplier 1.5), as in the end-to-end scenarios. -/
def rsAll : RulesetConfig := ⟨10, 30000, 10, true, true, 3, 3 / 2⟩

/-- Fixture: an active question instance with a 30000 ms limit, 10 base
points, started at time 0; option a is correct. -/
def qFix : QuestionInstance :=
  ⟨"qi1", "qb1", "sess", 0, "sum",
    [⟨"a", "4", true⟩, ⟨"b", "5", false⟩], "a", 30000, 10, 0⟩

/-- Fixture: stored state in phase active_question with `qFix` live, rope
at 50, team R carrying a streak of 2. -/
def stFix : StoredState :=
  { sessionId := "sess"
    tenantId := "t1"
    phase := Phase.active_question
    position := 50
    questionIds := ["qb1", "qb2"]
    currentQuestionIndex := 0
    currentQuestion := some qFix
    teams := [teamL, teamR]
    streaks := fun k => if k = "R" then ⟨2, 2⟩ else ⟨0, 0⟩
    startedAt := some 0
    lastEventId := "e0"
    snapshotVersion := 2 }

/-- Fixture: live engine for `stFix`, deadline timer armed for t = 30000. -/
def engFix : Engine := ⟨stFix, some rsAll, [], some 30000⟩

/-- Fixture: `engFix` with the rope at 95 (manual-adjust boundary case). -/
def engFix95 : Engine :=
  ⟨{ stFix with position := 95 }, some rsAll, [], some 30000⟩

/-- Fixture: a student on the left team. -/
def studentL : Client := ⟨"s1", Role.student, some "L"⟩

/-- Fixture: a student on the right team. -/
def studentR : Client := ⟨"s2", Role.student, some "R"⟩

/-- Fixture: the teacher connection. -/
def teacherC : Client := ⟨"t9", Role.teacher, none⟩

/-- Fixture: submission of the correct option of `qFix`. -/
def msgA : SubmitMsg := ⟨"qi1", "a"⟩

/-- Fixture: HTTP-fallback body submitting the correct option of `qFix`
for student s1 on team L. -/
def bodyL : HttpAnswerBody := ⟨"s1", "L", "qi1", "a"⟩

/-- Fixture: question row whose option a is correct. -/
def rowA : QuestionRow :=
  ⟨"multiple_choice", "easy", "sum",
    [⟨"a", "4", true⟩, ⟨"b", "5", false⟩], 30000, 10⟩

/-- Fixture: the same question row with the correct flag moved to option b. -/
def rowB : QuestionRow :=
  ⟨"multiple_choice", "easy", "sum",
    [⟨"a", "4", false⟩, ⟨"b", "5", true⟩], 30000, 10⟩

/-- Numeric JS fallback with a zero default is the identity. -/
theorem jsOr_zero (a : ℚ) : jsOr a 0 = a := by unfold jsOr; split <;> simp_all

/-- Numeric JS fallback is the identity on non-zero values. -/
theorem jsOr_of_ne (a b : ℚ) (h : a ≠ 0) : jsOr a b = a := by unfold jsOr; simp [h]

/-- Key membership survives the in-place branch of `assocSet`. -/
theorem any_map_set {α : Type} (m : List (String × α)) (k : String) (v : α)
    (h : m.any (fun p => p.1 == k) = true) :
    (m.map (fun p => if p.1 == k then (k, v) else p)).any (fun p => p.1 == k) =
      true := by
  induction m with
  | nil => simp at h
  | cons p t ih =>
    simp only [List.any_cons, Bool.or_eq_true] at h
    simp only [List.map_cons, List.any_cons, Bool.or_eq_true]
    rcases h with h | h
    · left
      rw [if_pos h]
      simp
    · right
      exact ih h

/-- A key just written by `assocSet` is present afterwards. -/
theorem assocHas_assocSet_self {α : Type} (m : List (String × α)) (k : String)
    (v : α) : assocHas (assocSet m k v) k = true := by
  unfold assocSet
  split
  · rename_i h
    unfold assocHas at h ⊢
    exact any_map_set m k v h
  · unfold assocHas
    simp

/-- Characterisation of `handleSubmitAnswer` when every admission check
passes: the handler takes the success branch `admittedSubmit`. -/
theorem handleSubmitAnswer_admitted (eng : Engine) (client : Client)
    (msg : SubmitMsg) (now : ℚ) (attemptId : String)
    (q : QuestionInstance) (ans : Answer)
    (hrole : client.role = Role.student)
    (hq : eng.storedState.currentQuestion = some q)
    (hphase : eng.storedState.phase = Phase.active_question)
    (hinst : msg.instanceId = q.id)
    (hdup : assocHas eng.answersThisQuestion client.userId = false)
    (hfind : q.answers.find? (fun a => a.id == msg.choiceId) = some ans) :
    handleSubmitAnswer eng client msg now attemptId =
      admittedSubmit eng client msg now attemptId q ans := by
  unfold handleSubmitAnswer admittedSubmit
  simp [hrole, hq, hphase, hinst, hdup, hfind]

/-- Characterisation of `handleHttpAnswer` when every admission check
passes: an attempt with only base points is recorded, the stored state is
untouched and no tug or strength output exists. -/
theorem handleHttpAnswer_admitted (eng : Engine) (body : HttpAnswerBody)
    (now : ℚ) (attemptId : String) (q : QuestionInstance) (ans : Answer)
    (hq : eng.storedState.currentQuestion = some q)
    (hphase : eng.storedState.phase = Phase.active_question)
    (hinst : body.questionInstanceId = q.id)
    (hdup : assocHas eng.answersThisQuestion body.studentId = false)
    (hfind : q.answers.find? (fun a => a.id == body.answerId) = some ans) :
    (handleHttpAnswer eng body now attemptId).1 =
      ⟨none,
        some ⟨attemptId, eng.storedState.sessionId, q.id, body.studentId,
          some body.teamId, body.answerId, ans.isCorrect, now - q.startedAt,
          (if ans.isCorrect then q.points else 0), now⟩,
        some ⟨ans.isCorrect, (if ans.isCorrect then q.points else 0),
          now - q.startedAt⟩⟩ ∧
    (handleHttpAnswer eng body now attemptId).2.storedState = eng.storedState ∧
    (handleHttpAnswer eng body now attemptId).2.ruleset = eng.ruleset ∧
    (handleHttpAnswer eng body now attemptId).2.questionTimer =
      eng.questionTimer ∧
    (handleHttpAnswer eng body now attemptId).2.answersThisQuestion =
      assocSet eng.answersThisQuestion body.studentId
        ⟨body.studentId, some body.teamId, body.answerId, ans.isCorrect,
          now - q.startedAt, (if ans.isCorrect then q.points else 0), now⟩ := by
  unfold handleHttpAnswer
  simp [hq, hphase, hinst, hdup, hfind]

/-- Mapping answer options to their public projection depends only on ids
and texts. -/
theorem publicAnswers_eq {l1 l2 : List Answer}
    (h : List.Forall₂ (fun a b => a.id = b.id ∧ a.text = b.text) l1 l2) :
    l1.map (fun a => (⟨a.id, a.text⟩ : PublicAnswer)) =
      l2.map (fun a => (⟨a.id, a.text⟩ : PublicAnswer)) := by
  induction h with
  | nil => rfl
  | cons hab ht ih => simp [hab.1, hab.2, ih]

/-- C1: for every admitted answer to the current question, the awarded
points (as persisted in the attempt row) equal base plus
floor(base x 0.5 x max(0, 1 - response_time_ms / time_limit_ms)) when the
answer is correct and speed bonus is enabled, exactly base when correct
with speed bonus disabled, and 0 when incorrect, where base is the question
instance's recorded points and response_time_ms is the submission time
minus the instance's startedAt. -/
theorem C1_awarded_points (eng : Engine) (client : Client) (msg : SubmitMsg)
    (now : ℚ) (attemptId : String) (q : QuestionInstance) (ans : Answer)
    (hrole : client.role = Role.student)
    (hq : eng.storedState.currentQuestion = some q)
    (hphase : eng.storedState.phase = Phase.active_question)
    (hinst : msg.instanceId = q.id)
    (hdup : assocHas eng.answersThisQuestion client.userId = false)
    (hfind : q.answers.find? (fun a => a.id == msg.choiceId) = some ans) :
    (ans.isCorrect = true →
      (eng.ruleset.map (fun r => r.pointsForSpeed)).getD false = true →
      ((handleSubmitAnswer eng client msg now attemptId).1.attemptInserted.map
          (fun r => r.pointsAwarded)) =
        some (q.points + ((⌊q.points * (1 / 2) *
            (max 0 (1 - (now - q.startedAt) / q.timeLimitMs))⌋ : ℤ) : ℚ))) ∧
    (ans.isCorrect = true →
      (eng.ruleset.map (fun r => r.pointsForSpeed)).getD false = false →
      ((handleSubmitAnswer eng client msg now attemptId).1.attemptInserted.map
          (fun r => r.pointsAwarded)) = some q.points) ∧
    (ans.isCorrect = false →
      ((handleSubmitAnswer eng client msg now attemptId).1.attemptInserted.map
          (fun r => r.pointsAwarded)) = some 0) := by
  rw [handleSubmitAnswer_admitted eng client msg now attemptId q ans hrole hq
    hphase hinst hdup hfind]
  unfold admittedSubmit
  refine ⟨fun hc hs => ?_, fun hc hs => ?_, fun hc => ?_⟩
  · cases ht : client.teamId <;> simp [hc, hs, ht]
  · cases ht : client.teamId <;> simp [hc, hs, ht]
  · cases ht : client.teamId <;> simp [hc, ht]

/-- Witness for C1: a correct answer on `engFix` at 3000 ms with base 10,
limit 30000 ms and speed bonus enabled is awarded
10 + floor(10 x 0.5 x 0.9) = 14 points. -/
theorem C1_witness :
    ((handleSubmitAnswer engFix studentL msgA 3000 "a1").1.attemptInserted.map
        (fun r => r.pointsAwarded)) = some 14 := by
  have h := (C1_awarded_points engFix studentL msgA 3000 "a1" qFix
    ⟨"a", "4", true⟩ rfl rfl rfl rfl rfl (by decide)).1 rfl rfl
  exact h.trans (by norm_num [qFix, max_def])

/-- C2: for every admitted correct answer from a student on a team of a
two-team session with a schema-valid ruleset, the tug delta is negative for
the first (left) team and positive for the second (right); its magnitude is
awarded points divided by 10, multiplied by the streak multiplier exactly
when streak bonus is enabled and the team's streak after increment reaches
the threshold; the new position is the old position plus delta clamped to
the interval from 0 to 100; the answering team's streak is incremented with
its maximum lifted, and the other team's streak is reset to 0 with its
maximum preserved. -/
theorem C2_tug_and_streaks (eng : Engine) (client : Client) (msg : SubmitMsg)
    (now : ℚ) (attemptId : String) (q : QuestionInstance) (ans : Answer)
    (tid : String) (t0 t1 : Team) (r : RulesetConfig)
    (hrole : client.role = Role.student)
    (hq : eng.storedState.currentQuestion = some q)
    (hphase : eng.storedState.phase = Phase.active_question)
    (hinst : msg.instanceId = q.id)
    (hdup : assocHas eng.answersThisQuestion client.userId = false)
    (hfind : q.answers.find? (fun a => a.id == msg.choiceId) = some ans)
    (hcor : ans.isCorrect = true)
    (hteam : client.teamId = some tid)
    (hteams : eng.storedState.teams = [t0, t1])
    (hne : t0.id ≠ t1.id)
    (htid : tid = t0.id ∨ tid = t1.id)
    (hrs : eng.ruleset = some r)
    (hvalid : rulesetSchemaValid r) :
    (let P : ℚ := if r.pointsForSpeed then
        q.points + ((⌊q.points * (1 / 2) *
            (max 0 (1 - (now - q.startedAt) / q.timeLimitMs))⌋ : ℤ) : ℚ)
      else q.points
     let newStreak := (eng.storedState.streaks tid).current + 1
     let mag : ℚ := (P / 10) *
        (if r.streakBonus = true ∧ r.streakThreshold ≤ newStreak
         then r.streakMultiplier else 1)
     let d : ℚ := if tid = t0.id then -mag else mag
     let out := (handleSubmitAnswer eng client msg now attemptId).1
     let e2 := (handleSubmitAnswer eng client msg now attemptId).2
     let otherId := if tid = t0.id then t1.id else t0.id
     out.tugUpdate = some ⟨max 0 (min 100 (eng.storedState.position + d)),
        attemptId, d, Reason.correct_answer, tid⟩ ∧
     e2.storedState.position = max 0 (min 100 (eng.storedState.position + d)) ∧
     e2.storedState.streaks tid =
        ⟨newStreak, max (eng.storedState.streaks tid).max newStreak⟩ ∧
     e2.storedState.streaks otherId =
        ⟨0, (eng.storedState.streaks otherId).max⟩) := by
  rw [handleSubmitAnswer_admitted eng client msg now attemptId q ans hrole hq
    hphase hinst hdup hfind]
  unfold admittedSubmit
  simp only [hcor, hteam, hrs, hteams]
  have hthr : jsOr r.streakThreshold 3 = r.streakThreshold :=
    jsOr_of_ne _ _ (by
      have h2 := hvalid.2.2.2.2.2.2.1
      intro h0
      rw [h0] at h2
      norm_num at h2)
  have hmul : jsOr r.streakMultiplier (3 / 2) = r.streakMultiplier :=
    jsOr_of_ne _ _ (by
      have h2 := hvalid.2.2.2.2.2.2.2.2.1
      intro h0
      rw [h0] at h2
      norm_num at h2)
  rcases htid with h | h
  · subst h
    by_cases hsb : r.streakBonus = true
    · by_cases hth : r.streakThreshold ≤ (eng.storedState.streaks t0.id).current + 1
      · simp [List.findIdx?, List.foldl, hthr, hmul, jsOr_zero, Option.elim,
          TUG_MIN_POSITION, TUG_MAX_POSITION, hsb, hth, Function.update,
          hne, Ne.symm hne, neg_mul, mul_one]
      · simp [List.findIdx?, List.foldl, hthr, hmul, jsOr_zero, Option.elim,
          TUG_MIN_POSITION, TUG_MAX_POSITION, hsb, hth, Function.update,
          hne, Ne.symm hne, neg_mul, mul_one]
    · simp [List.findIdx?, List.foldl, hthr, hmul, jsOr_zero, Option.elim,
        TUG_MIN_POSITION, TUG_MAX_POSITION, hsb, Function.update,
        hne, Ne.symm hne, neg_mul, mul_one]
  · subst h
    by_cases hsb : r.streakBonus = true
    · by_cases hth : r.streakThreshold ≤ (eng.storedState.streaks t1.id).current + 1
      · simp [List.findIdx?, List.foldl, hthr, hmul, jsOr_zero, Option.elim,
          TUG_MIN_POSITION, TUG_MAX_POSITION, hsb, hth, Function.update,
          hne, Ne.symm hne, neg_mul, mul_one]
      · simp [List.findIdx?, List.foldl, hthr, hmul, jsOr_zero, Option.elim,
          TUG_MIN_POSITION, TUG_MAX_POSITION, hsb, hth, Function.update,
          hne, Ne.symm hne, neg_mul, mul_one]
    · simp [List.findIdx?, List.foldl, hthr, hmul, jsOr_zero, Option.elim,
        TUG_MIN_POSITION, TUG_MAX_POSITION, hsb, Function.update,
        hne, Ne.symm hne, neg_mul, mul_one]

/-- Witness for C2: on `engFix` team R (second team, streak 2, threshold 3,
multiplier 1.5) answers correctly at 15000 ms for 12 points; the delta is
plus (12/10) x 1.5 = 1.8, the rope moves from 50 to 51.8, R's streak
becomes 3 and L's streak is reset. -/
theorem C2_witness :
    (handleSubmitAnswer engFix studentR msgA 15000 "a2").1.tugUpdate =
      some ⟨259 / 5, "a2", 9 / 5, Reason.correct_answer, "R"⟩ ∧
    (handleSubmitAnswer engFix studentR msgA 15000 "a2").2.storedState.position =
      259 / 5 ∧
    (handleSubmitAnswer engFix studentR msgA 15000 "a2").2.storedState.streaks "R" =
      ⟨3, 3⟩ ∧
    (handleSubmitAnswer engFix studentR msgA 15000 "a2").2.storedState.streaks "L" =
      ⟨0, 0⟩ := by
  have h := C2_tug_and_streaks engFix studentR msgA 15000 "a2" qFix
    ⟨"a", "4", true⟩ "R" teamL teamR rsAll rfl rfl rfl rfl rfl (by decide) rfl rfl
    rfl (by decide) (Or.inr rfl) rfl (by norm_num [rulesetSchemaValid, rsAll])
  have hRL : ¬ ("R" : String) = "L" := by decide
  have hLR : ¬ ("L" : String) = "R" := by decide
  refine ⟨h.1.trans ?_, (h.2.1).trans ?_, (h.2.2.1).trans ?_, ?_⟩
  · norm_num [qFix, rsAll, engFix, stFix, teamL, max_def, min_def, hRL]
  · norm_num [qFix, rsAll, engFix, stFix, teamL, max_def, min_def, hRL]
  · norm_num [qFix, rsAll, engFix, stFix, max_def, hRL]
  · have h4 := h.2.2.2
    simp only [teamL, teamR] at h4
    exact h4.trans (by norm_num [engFix, stFix, max_def, hRL, hLR])

set_option maxHeartbeats 1000000 in
/-- Position of the engine after `handleSubmitAnswer`: either unchanged or
the clamp of the old position plus some delta. -/
theorem submit_position_cases (eng : Engine) (client : Client) (msg : SubmitMsg)
    (now : ℚ) (attemptId : String) :
    (handleSubmitAnswer eng client msg now attemptId).2.storedState.position =
        eng.storedState.position ∨
    ∃ d, (handleSubmitAnswer eng client msg now attemptId).2.storedState.position =
        max TUG_MIN_POSITION (min TUG_MAX_POSITION (eng.storedState.position + d)) := by
  unfold handleSubmitAnswer
  repeat' split
  all_goals first
    | exact Or.inl rfl
    | exact Or.inr ⟨_, rfl⟩

/-- Position of the engine after `handleManualAdjust`: either unchanged or
the clamp of the old position plus some delta. -/
theorem manual_position_cases (eng : Engine) (client : Client) (msgDelta now : ℚ)
    (eventId : String) :
    (handleManualAdjust eng client msgDelta now eventId).2.storedState.position =
        eng.storedState.position ∨
    ∃ d, (handleManualAdjust eng client msgDelta now eventId).2.storedState.position =
        max TUG_MIN_POSITION (min TUG_MAX_POSITION (eng.storedState.position + d)) := by
  unfold handleManualAdjust
  repeat' split
  all_goals first
    | exact Or.inl rfl
    | exact Or.inr ⟨_, rfl⟩

/-- The HTTP fallback answer handler never moves the rope. -/
theorem http_position (eng : Engine) (body : HttpAnswerBody) (now : ℚ)
    (attemptId : String) :
    (handleHttpAnswer eng body now attemptId).2.storedState.position =
      eng.storedState.position := by
  unfold handleHttpAnswer
  repeat' split
  all_goals rfl

/-- Pausing never moves the rope. -/
theorem pause_position (eng : Engine) (client : Client) :
    (handlePause eng client).2.storedState.position =
      eng.storedState.position := by
  unfold handlePause
  repeat' split
  all_goals rfl

/-- Resuming never moves the rope. -/
theorem resume_position (eng : Engine) (client : Client) :
    (handleResume eng client).2.storedState.position =
      eng.storedState.position := by
  unfold handleResume
  repeat' split
  all_goals rfl

/-- Starting a question never moves the rope. -/
theorem startQuestion_position (eng : Engine) (index : Int) (questionId : String)
    (row : QuestionRow) (now : ℚ) (instanceId : String) :
    (startQuestion eng index questionId row now instanceId).2.storedState.position =
      eng.storedState.position := rfl

/-- Ending a question never moves the rope. -/
theorem endQuestion_position (eng : Engine) (now : ℚ) :
    (endCurrentQuestion eng now).2.storedState.position =
      eng.storedState.position := by
  unfold endCurrentQuestion
  repeat' split
  all_goals rfl

/-- Ending the game never moves the rope. -/
theorem endGame_position (eng : Engine) (now : ℚ) :
    (endGame eng now).storedState.position = eng.storedState.position := by
  unfold endGame
  split
  · exact endQuestion_position eng now
  · rfl

/-- Every command preserves the rope-position bounds. -/
theorem stepCommand_position_bounds (eng : Engine) (c : Command)
    (h0 : 0 ≤ eng.storedState.position) (h1 : eng.storedState.position ≤ 100) :
    0 ≤ (stepCommand eng c).storedState.position ∧
      (stepCommand eng c).storedState.position ≤ 100 := by
  have hclamp : ∀ x : ℚ,
      0 ≤ max TUG_MIN_POSITION (min TUG_MAX_POSITION x) ∧
      max TUG_MIN_POSITION (min TUG_MAX_POSITION x) ≤ 100 := by
    intro x
    constructor
    · calc (0 : ℚ) = TUG_MIN_POSITION := by norm_num [TUG_MIN_POSITION]
        _ ≤ _ := le_max_left _ _
    · refine max_le (by norm_num [TUG_MIN_POSITION]) ?_
      calc min TUG_MAX_POSITION x ≤ TUG_MAX_POSITION := min_le_left _ _
        _ = 100 := by norm_num [TUG_MAX_POSITION]
  cases c with
  | submitAnswer client msg now attemptId =>
    rcases submit_position_cases eng client msg now attemptId with h | ⟨d, h⟩
    · simp only [stepCommand, h]; exact ⟨h0, h1⟩
    · simp only [stepCommand, h]; exact hclamp _
  | httpAnswer body now attemptId =>
    simp only [stepCommand, http_position]; exact ⟨h0, h1⟩
  | manualAdjust client msgDelta now eventId =>
    rcases manual_position_cases eng client msgDelta now eventId with h | ⟨d, h⟩
    · simp only [stepCommand, h]; exact ⟨h0, h1⟩
    · simp only [stepCommand, h]; exact hclamp _
  | pause client => simp only [stepCommand, pause_position]; exact ⟨h0, h1⟩
  | resume client => simp only [stepCommand, resume_position]; exact ⟨h0, h1⟩
  | startQ index questionId row now instanceId =>
    simp only [stepCommand, startQuestion_position]; exact ⟨h0, h1⟩
  | endQ now => simp only [stepCommand, endQuestion_position]; exact ⟨h0, h1⟩
  | gameOver now => simp only [stepCommand, endGame_position]; exact ⟨h0, h1⟩
  | teams roster => exact ⟨h0, h1⟩

/-- Folding any command list preserves the rope-position bounds. -/
theorem run_position_bounds (cmds : List Command) (eng : Engine)
    (h0 : 0 ≤ eng.storedState.position) (h1 : eng.storedState.position ≤ 100) :
    0 ≤ (List.foldl stepCommand eng cmds).storedState.position ∧
      (List.foldl stepCommand eng cmds).storedState.position ≤ 100 := by
  induction cmds generalizing eng with
  | nil => exact ⟨h0, h1⟩
  | cons c rest ih =>
    have hstep := stepCommand_position_bounds eng c h0 h1
    exact ih (stepCommand eng c) hstep.1 hstep.2

/-- C3: the rope position is 50 immediately after init, and for every
command sequence applied to an initialised engine the position stays within
0 and 100: every operation that changes it clamps the result. -/
theorem C3_position_invariant (sid tid : String) (qids : List String)
    (rs : Option RulesetConfig) (now : ℚ) (eid : String) (cmds : List Command) :
    (Engine.init sid tid qids rs now eid).storedState.position = 50 ∧
    0 ≤ (List.foldl stepCommand (Engine.init sid tid qids rs now eid)
        cmds).storedState.position ∧
    (List.foldl stepCommand (Engine.init sid tid qids rs now eid)
        cmds).storedState.position ≤ 100 := by
  refine ⟨rfl, ?_⟩
  exact run_position_bounds cmds _
    (by norm_num [Engine.init, TUG_START_POSITION])
    (by norm_num [Engine.init, TUG_START_POSITION])

/-- C4: an admitted submission is persisted and answered exactly once, and
an identical repeat by the same student for the same instance is rejected
with ALREADY_ANSWERED, produces no attempt, no event and no state change. -/
theorem C4_duplicate_submit (eng : Engine) (client : Client) (msg : SubmitMsg)
    (now now2 : ℚ) (attemptId attemptId2 : String)
    (q : QuestionInstance) (ans : Answer)
    (hrole : client.role = Role.student)
    (hq : eng.storedState.currentQuestion = some q)
    (hphase : eng.storedState.phase = Phase.active_question)
    (hinst : msg.instanceId = q.id)
    (hdup : assocHas eng.answersThisQuestion client.userId = false)
    (hfind : q.answers.find? (fun a => a.id == msg.choiceId) = some ans) :
    (let first := handleSubmitAnswer eng client msg now attemptId
     first.1.error = none ∧
     first.1.attemptInserted.isSome = true ∧
     first.1.answerResult.isSome = true ∧
     handleSubmitAnswer first.2 client msg now2 attemptId2 =
       (errOut WsErrorCode.ALREADY_ANSWERED, first.2)) := by
  rw [handleSubmitAnswer_admitted eng client msg now attemptId q ans hrole hq
    hphase hinst hdup hfind]
  cases hc : ans.isCorrect <;> cases ht : client.teamId <;>
    (unfold admittedSubmit
     simp only [hc, ht]
     refine ⟨by trivial, by trivial, by trivial, ?_⟩
     unfold handleSubmitAnswer
     simp [hrole, hq, hphase, hinst, assocHas_assocSet_self])

/-- Witness for C4: on `engFix` the first submission of student s1 is
admitted and the identical repeat returns ALREADY_ANSWERED with the engine
unchanged. -/
theorem C4_witness :
    (handleSubmitAnswer (handleSubmitAnswer engFix studentL msgA 3000 "a1").2
        studentL msgA 4000 "a9") =
      (errOut WsErrorCode.ALREADY_ANSWERED,
        (handleSubmitAnswer engFix studentL msgA 3000 "a1").2) ∧
    (handleSubmitAnswer engFix studentL msgA 3000 "a1").1.error = none := by
  have h := C4_duplicate_submit engFix studentL msgA 3000 4000 "a1" "a9" qFix
    ⟨"a", "4", true⟩ rfl rfl rfl rfl rfl (by decide)
  exact ⟨h.2.2.2, h.1⟩

/-- C5: the code bug behind the pause claim, evaluated on `engFix` (active
question started at 0 with deadline 30000 and the timer armed): pausing
changes only the phase and leaves the scheduled deadline untouched (no
remaining time is recorded anywhere in the state), the end-of-question
handler still fires during the pause and moves the phase to reveal, and
resuming does not reschedule the timer. -/
theorem C5_pause_leaves_timer_armed :
    (handlePause engFix teacherC).2.questionTimer = some 30000 ∧
    (handlePause engFix teacherC).2.storedState.phase = Phase.paused ∧
    (endCurrentQuestion (handlePause engFix teacherC).2 30000).2.storedState.phase =
      Phase.reveal ∧
    (handleResume (handlePause engFix teacherC).2 teacherC).2.questionTimer =
      some 30000 := by
  refine ⟨rfl, rfl, rfl, rfl⟩

/-- Counterexample for C6: on `engFix` (deadline at 30000) a submission at
30001 - strictly after startedAt plus timeLimitMs, with the phase still
active_question - is not rejected with QUESTION_EXPIRED: it is admitted and
an attempt is persisted. -/
theorem C6_counterexample :
    (handleSubmitAnswer engFix studentL msgA 30001 "a6").1.error ≠
      some WsErrorCode.QUESTION_EXPIRED ∧
    (handleSubmitAnswer engFix studentL msgA 30001 "a6").1.attemptInserted.isSome =
      true := by
  exact ⟨by decide, rfl⟩

/-- C6 (amended): the submit handler performs no deadline comparison, so a
submission at or after startedAt plus timeLimitMs is admitted whenever the
phase is still active_question (in particular one exactly at the deadline
is accepted); once the question has ended (phase reveal) a submission is
rejected with INVALID_MESSAGE - not QUESTION_EXPIRED - with no persisted
attempt and no state change. QUESTION_EXPIRED is only used for an instance
id mismatch. -/
theorem C6_amended (eng : Engine) (client : Client) (msg : SubmitMsg)
    (now : ℚ) (attemptId : String) (q : QuestionInstance) (ans : Answer)
    (hrole : client.role = Role.student)
    (hq : eng.storedState.currentQuestion = some q)
    (hinst : msg.instanceId = q.id)
    (hdup : assocHas eng.answersThisQuestion client.userId = false)
    (hfind : q.answers.find? (fun a => a.id == msg.choiceId) = some ans)
    (hlate : q.startedAt + q.timeLimitMs ≤ now) :
    (eng.storedState.phase = Phase.active_question →
      (handleSubmitAnswer eng client msg now attemptId).1.error = none ∧
      (handleSubmitAnswer eng client msg now attemptId).1.attemptInserted.isSome =
        true) ∧
    (eng.storedState.phase = Phase.reveal →
      handleSubmitAnswer eng client msg now attemptId =
        (errOut WsErrorCode.INVALID_MESSAGE, eng)) := by
  constructor
  · intro hphase
    rw [handleSubmitAnswer_admitted eng client msg now attemptId q ans hrole hq
      hphase hinst hdup hfind]
    unfold admittedSubmit
    cases ht : client.teamId <;> cases hc : ans.isCorrect <;> simp [ht, hc]
  · intro hphase
    unfold handleSubmitAnswer
    simp [hrole, hq, hphase]

/-- Witness for C6 (amended): a submission at 30005, past the 30000
deadline of `engFix` while the phase is still active_question, is admitted
with a persisted attempt. -/
theorem C6_witness :
    (handleSubmitAnswer engFix studentL msgA 30005 "a7").1.error = none ∧
    (handleSubmitAnswer engFix studentL msgA 30005 "a7").1.attemptInserted.isSome =
      true := by
  exact (C6_amended engFix studentL msgA 30005 "a7" qFix ⟨"a", "4", true⟩
    rfl rfl rfl rfl (by decide) (by norm_num [qFix])).1 rfl

/-- Counterexample for C7: on `engFix` (speed bonus enabled, base 10) the
WebSocket path awards 14 points at 3000 ms and moves the rope to 48.6,
while the HTTP fallback awards only 10 base points and leaves the rope at
50 - the two paths do not produce the same outcome. -/
theorem C7_counterexample :
    ((handleSubmitAnswer engFix studentL msgA 3000 "b1").1.attemptInserted.map
        (fun r => r.pointsAwarded)) = some 14 ∧
    ((handleHttpAnswer engFix bodyL 3000 "b2").1.attemptInserted.map
        (fun r => r.pointsAwarded)) = some 10 ∧
    (handleSubmitAnswer engFix studentL msgA 3000 "b1").2.storedState.position =
      243 / 5 ∧
    (handleHttpAnswer engFix bodyL 3000 "b2").2.storedState.position = 50 ∧
    ((14 : ℚ) ≠ 10) ∧ ((243 / 5 : ℚ) ≠ 50) := by
  have hws := handleSubmitAnswer_admitted engFix studentL msgA 3000 "b1" qFix
    ⟨"a", "4", true⟩ rfl rfl rfl rfl rfl (by decide)
  have hh := handleHttpAnswer_admitted engFix bodyL 3000 "b2" qFix
    ⟨"a", "4", true⟩ rfl rfl rfl rfl (by decide)
  have hLR : ¬ ("L" : String) = "R" := by decide
  have hRL : ¬ ("R" : String) = "L" := by decide
  refine ⟨?_, ?_, ?_, ?_, by norm_num, by norm_num⟩
  · rw [hws]
    norm_num [admittedSubmit, engFix, stFix, qFix, rsAll, studentL, msgA, max_def]
  · rw [hh.1]
    norm_num [qFix, engFix, stFix]
  · rw [hws]
    norm_num [admittedSubmit, engFix, stFix, qFix, rsAll, studentL, msgA, teamL,
      teamR, max_def, min_def, List.findIdx?, jsOr, Function.update, hLR, hRL,
      TUG_MIN_POSITION, TUG_MAX_POSITION]
  · rw [hh.2.1]
    norm_num [engFix, stFix]

/-- C7 (amended): the HTTP fallback performs the same admission checks as
the WebSocket path and persists an attempt with the same correctness and
response time, but it awards only the base points (no speed bonus even when
enabled) and performs no streak update, no tug movement, no strength event
and no TUG_UPDATE broadcast: the stored state is unchanged. -/
theorem C7_http_mirrors_checks_but_diverges (eng : Engine) (body : HttpAnswerBody)
    (now : ℚ) (attemptId attemptId2 : String) (q : QuestionInstance) (ans : Answer)
    (hq : eng.storedState.currentQuestion = some q)
    (hphase : eng.storedState.phase = Phase.active_question)
    (hinst : body.questionInstanceId = q.id)
    (hdup : assocHas eng.answersThisQuestion body.studentId = false)
    (hfind : q.answers.find? (fun a => a.id == body.answerId) = some ans) :
    (handleHttpAnswer eng body now attemptId).1.errorMsg = none ∧
    (handleHttpAnswer eng body now attemptId).1.response =
      some ⟨ans.isCorrect, (if ans.isCorrect = true then q.points else 0),
        now - q.startedAt⟩ ∧
    ((handleHttpAnswer eng body now attemptId).1.attemptInserted.map
        (fun r => r.pointsAwarded)) =
      some (if ans.isCorrect = true then q.points else 0) ∧
    (handleHttpAnswer eng body now attemptId).2.storedState = eng.storedState ∧
    ((handleSubmitAnswer eng ⟨body.studentId, Role.student, some body.teamId⟩
        ⟨body.questionInstanceId, body.answerId⟩ now attemptId2).1.attemptInserted.map
        (fun r => (r.isCorrect, r.responseTimeMs))) =
      ((handleHttpAnswer eng body now attemptId).1.attemptInserted.map
        (fun r => (r.isCorrect, r.responseTimeMs))) := by
  have hh := handleHttpAnswer_admitted eng body now attemptId q ans hq hphase
    hinst hdup hfind
  rw [handleSubmitAnswer_admitted eng ⟨body.studentId, Role.student, some body.teamId⟩
    ⟨body.questionInstanceId, body.answerId⟩ now attemptId2 q ans rfl hq hphase
    hinst hdup hfind]
  refine ⟨?_, ?_, ?_, ?_, ?_⟩
  · rw [hh.1]
  · rw [hh.1]
  · rw [hh.1]
    cases hc : ans.isCorrect <;> simp [hc]
  · exact hh.2.1
  · rw [hh.1]
    unfold admittedSubmit
    cases hc : ans.isCorrect <;> simp [hc]

/-- Witness for C7 (amended): the HTTP fallback on `engFix` admits the
submission and leaves the stored state untouched. -/
theorem C7_witness :
    (handleHttpAnswer engFix bodyL 3000 "b3").1.errorMsg = none ∧
    (handleHttpAnswer engFix bodyL 3000 "b3").2.storedState =
      engFix.storedState := by
  have h := C7_http_mirrors_checks_but_diverges engFix bodyL 3000 "b3" "b4" qFix
    ⟨"a", "4", true⟩ rfl rfl rfl rfl (by decide)
  exact ⟨h.1, h.2.2.2.1⟩

/-- Counterexample for C8: with the rope at 95, a teacher manual adjust of
+20 broadcasts TUG_UPDATE with delta 20 (the requested delta) and position
100; the broadcast delta is not the effective delta 100 - 95 = 5 that the
claim requires. -/
theorem C8_counterexample :
    ((handleManualAdjust engFix95 teacherC 20 40000 "m1").1.tugUpdate.map
        (fun t => t.delta)) = some 20 ∧
    ((handleManualAdjust engFix95 teacherC 20 40000 "m1").1.tugUpdate.map
        (fun t => t.position)) = some 100 ∧
    ¬ ((handleManualAdjust engFix95 teacherC 20 40000 "m1").1.tugUpdate.map
        (fun t => t.delta)) = some (100 - 95) := by
  refine ⟨?_, ?_, ?_⟩ <;>
    norm_num [handleManualAdjust, engFix95, stFix, teacherC, teamL, teamR,
      TUG_MIN_POSITION, TUG_MAX_POSITION, max_def, min_def]

/-- C8 (amended): for a teacher manual adjustment with requested delta in
the interval from -100 to 100 on a two-team session, the new position is
the old position plus the delta clamped to the interval from 0 to 100, and
the broadcast TUG_UPDATE carries reason manual_adjust, the team on the side
the delta favors (second team when the delta is positive, first team
otherwise) and the requested delta itself - not the effective delta. -/
theorem C8_amended (eng : Engine) (client : Client) (d now : ℚ) (eventId : String)
    (t0 t1 : Team)
    (hrole : client.role = Role.teacher)
    (hteams : eng.storedState.teams = [t0, t1])
    (hd1 : -100 ≤ d) (hd2 : d ≤ 100) :
    (handleManualAdjust eng client d now eventId).2.storedState.position =
      max 0 (min 100 (eng.storedState.position + d)) ∧
    (handleManualAdjust eng client d now eventId).1.tugUpdate =
      some ⟨max 0 (min 100 (eng.storedState.position + d)), eventId, d,
        Reason.manual_adjust, (if 0 < d then t1.id else t0.id)⟩ := by
  have hcl : max (-100 : ℚ) (min 100 d) = d := by
    rw [min_eq_right hd2, max_eq_right hd1]
  unfold handleManualAdjust
  simp only [hrole, hteams, hcl]
  by_cases hdp : (0 : ℚ) < d <;>
    simp [hdp, TUG_MIN_POSITION, TUG_MAX_POSITION]

/-- Witness for C8 (amended): position 95 plus requested delta 20 clamps to
100 and the broadcast carries the requested delta 20 attributed to the
right team. -/
theorem C8_witness :
    (handleManualAdjust engFix95 teacherC 20 41000 "m2").2.storedState.position =
      100 ∧
    (handleManualAdjust engFix95 teacherC 20 41000 "m2").1.tugUpdate =
      some ⟨100, "m2", 20, Reason.manual_adjust, "R"⟩ := by
  have h := C8_amended engFix95 teacherC 20 41000 "m2" teamL teamR rfl rfl
    (by norm_num) (by norm_num)
  refine ⟨h.1.trans ?_, h.2.trans ?_⟩ <;>
    norm_num [engFix95, stFix, teamR, max_def, min_def]

/-- C9: the QUESTION broadcast built at question start contains no
correct-answer information: two question rows that agree on everything
except which options are flagged correct produce identical QUESTION events,
and each answer option appears in the event only as its id and text. -/
theorem C9_question_event_leaks_no_answer (eng : Engine) (index : Int)
    (questionId : String) (r1 r2 : QuestionRow) (now : ℚ) (instanceId : String)
    (hty : r1.qtype = r2.qtype) (hdif : r1.difficulty = r2.difficulty)
    (htext : r1.text = r2.text) (htl : r1.timeLimitMs = r2.timeLimitMs)
    (hpts : r1.points = r2.points)
    (hans : List.Forall₂ (fun a b => a.id = b.id ∧ a.text = b.text)
      r1.answers r2.answers) :
    (startQuestion eng index questionId r1 now instanceId).1 =
      (startQuestion eng index questionId r2 now instanceId).1 := by
  unfold startQuestion
  simp [hty, hdif, htext, htl, hpts, publicAnswers_eq hans]

/-- Witness for C9: `rowA` and `rowB` differ only in which option is
correct, and starting a question from either broadcasts the same event. -/
theorem C9_witness :
    (startQuestion engFix 1 "qb2" rowA 40000 "qi2").1 =
      (startQuestion engFix 1 "qb2" rowB 40000 "qi2").1 := by
  exact C9_question_event_leaks_no_answer engFix 1 "qb2" rowA rowB 40000 "qi2"
    rfl rfl rfl rfl rfl
    (List.Forall₂.cons ⟨rfl, rfl⟩ (List.Forall₂.cons ⟨rfl, rfl⟩ List.Forall₂.nil))

/-- C10: every state read with role student - the Control API get_state
with a non-teacher role parameter and the STATE_SNAPSHOT built for a
student connection - omits the current question entirely (the field is
absent, not redacted), while the teacher projection carries the current
question instance unchanged. -/
theorem C10_student_state_omits_question (eng : Engine) (roleParam : Option String)
    (h : roleParam ≠ some "teacher") :
    (handleGetState eng roleParam).currentQuestion = none ∧
    (sendStateSnapshot eng Role.student).1.currentQuestion = none ∧
    (buildGameState eng true).currentQuestion =
      eng.storedState.currentQuestion := by
  refine ⟨?_, by simp [sendStateSnapshot, buildGameState],
    by simp [buildGameState]⟩
  unfold handleGetState
  rcases roleParam with _ | s
  · simp [buildGameState]
  · by_cases hs : s = ""
    · simp [hs, buildGameState]
    · have hnt : ¬ s = "teacher" := fun hh => h (by rw [hh])
      simp [hs, buildGameState, beq_iff_eq, hnt]

/-- Witness for C10: on `engFix` (with a live question) the student
projection has no current question while the teacher projection has it. -/
theorem C10_witness :
    (handleGetState engFix (some "student")).currentQuestion = none ∧
    (buildGameState engFix true).currentQuestion = some qFix := by
  have h := C10_student_state_omits_question engFix (some "student") (by decide)
  exact ⟨h.1, h.2.2.trans rfl⟩
